import Mathlib

/-!
Shallow embedding of the buffer/request lifecycle core of
`src/core/libcamera_app.cpp` and of the `LibcameraEncoder` class
(`libcamera_encoder.cpp`), together with theorems settling the claims
about them.

Modelling conventions:
* pointers/identities (CompletedRequest*, Request*, Stream*, FrameBuffer*)
  are `Nat`;
* `std::queue` is a `List` whose head is the queue front;
* the `std::set known_completed_requests_` is a `List Nat` used only
  through membership and erasure;
* `uint64_t` timestamps are `Nat` with explicit wrap-around `% 2^64`
  where the C++ subtraction can wrap;
* the floating-point framerate is modelled in `ℚ`; the only fact the
  claims need about it is whether it is zero, which `ℚ` captures
  faithfully (a double division of nonzero finite operands is nonzero);
* throwing a C++ exception (or a failing `assert`) is `Except.error`;
* calls into the device/driver layer that the claims treat as succeeding
  (camera_->stop, createRequest, addBuffer) are modelled as succeeding,
  and a successful `camera_->queueRequest` is recorded on a `deviceQueue`
  trace so that "no request is submitted to the device" is expressible.
-/

namespace LibcameraApp

/-- One (Stream*, FrameBuffer*) binding inside a request. -/
abbrev Binding := Nat × Nat

/-- The preview hand-off slot item: a CompletedRequest shared reference plus
the stream it is to be shown from (`PreviewItem` in the C++). The C++ marks
the slot empty by a null `stream`; we model the slot as an `Option`. -/
structure PreviewItem where
  completedRequest : Nat
  stream : Nat
deriving DecidableEq, Repr

/-- The mutable state of `LibcameraApp` that the lifecycle claims are about:
`camera_started_`, `known_completed_requests_`, `free_requests_`,
`controls_`, the preview slot and its drop counter, the completion sequence
counter `sequence_`, `last_timestamp_`, plus a trace `deviceQueue` of the
requests submitted to the device by `camera_->queueRequest`. -/
structure AppState where
  cameraStarted : Bool
  knownCompletedRequests : List Nat
  freeRequests : List Nat
  controls : List Nat
  previewItem : Option PreviewItem
  previewFramesDropped : Nat
  sequence : Nat
  lastTimestamp : Nat
  deviceQueue : List Nat
deriving DecidableEq, Repr

/-- Outcome of one `LibcameraApp::queueRequest` (Recycle) run:
returned because the camera is stopped, returned because the identity is
unknown, warned-and-dropped because no free request container was
available, or submitted a request to the device. -/
inductive RecycleOutcome
  | stoppedNoop
  | unknownNoop
  | droppedNoFree
  | submitted (req : Nat)
deriving DecidableEq, Repr

/-- Embedding of `LibcameraApp::queueRequest` (libcamera_app.cpp:440-487),
the release action of a CompletedRequest shared pointer. `cr` is the
CompletedRequest's identity. In source order: under `camera_stop_mutex_`,
return if `!camera_started_`; return if `cr` is not in
`known_completed_requests_`; erase it; pop the front of `free_requests_`
(warn and return if empty); move the pending controls onto the request and
submit it with `camera_->queueRequest`. -/
def queueRequest (s : AppState) (cr : Nat) : AppState × RecycleOutcome :=
  if !s.cameraStarted then (s, .stoppedNoop)
  else if cr ∉ s.knownCompletedRequests then (s, .unknownNoop)
  else
    let s1 : AppState :=
      { s with knownCompletedRequests := s.knownCompletedRequests.erase cr }
    match s1.freeRequests with
    | [] => (s1, .droppedNoFree)
    | req :: rest =>
      ({ s1 with
          freeRequests := rest
          controls := []
          deviceQueue := s1.deviceQueue ++ [req] }, .submitted req)

/-- Embedding of `LibcameraApp::StopCamera` (libcamera_app.cpp:396-433),
with `camera_->stop()` succeeding: under `camera_stop_mutex_` clear
`camera_started_`; then clear `known_completed_requests_`, the message
queue, pop everything off `free_requests_`, and clear the pending
controls. (`preview_->Reset()` acts on the preview window, not on the
hand-off slot, and the message queue is not part of this state record.) -/
def StopCamera (s : AppState) : AppState :=
  { s with
      cameraStarted := false
      knownCompletedRequests := []
      freeRequests := []
      controls := [] }

/-- Embedding of `LibcameraApp::ShowPreview` (libcamera_app.cpp:548-556):
under `preview_item_mutex_`, if the slot is empty store the item, else
increment `preview_frames_dropped_` (the arriving shared reference is not
stored, so it is released). -/
def ShowPreview (s : AppState) (cr stream : Nat) : AppState :=
  match s.previewItem with
  | none => { s with previewItem := some ⟨cr, stream⟩ }
  | some _ => { s with previewFramesDropped := s.previewFramesDropped + 1 }

/-- A burst of `ShowPreview` calls with no intervening drain of the slot. -/
def showPreviewBurst (s : AppState) (items : List (Nat × Nat)) : AppState :=
  items.foldl (fun t p => ShowPreview t p.1 p.2) s

/-- Modulus of the C++ `uint64_t` arithmetic. -/
def UINT64_MOD : Nat := 2 ^ 64

/-- The C++ expression `timestamp - last_timestamp_` on `uint64_t`
operands (both `< 2^64`): wrap-around subtraction. -/
def wrapSub (a b : Nat) : Nat := (a + (UINT64_MOD - b)) % UINT64_MOD

/-- The framerate computation of `LibcameraApp::requestComplete`
(libcamera_app.cpp:672-678): `0` if `last_timestamp_ == 0 ||
last_timestamp_ == timestamp`, else `1e9 / (timestamp - last_timestamp_)`
with the subtraction in `uint64_t`. -/
def computeFramerate (lastTimestamp timestamp : Nat) : ℚ :=
  if lastTimestamp = 0 ∨ lastTimestamp = timestamp then 0
  else (1000000000 : ℚ) / (wrapSub timestamp lastTimestamp : ℚ)

/-- The framerate computation as the spec describes it: "the first frame
and any non-increasing timestamp yield a rate of 0", otherwise `1e9`
divided by the (true, non-wrapping) timestamp delta. Written from the
spec's words, to be compared with `computeFramerate`. -/
def specFramerate (lastTimestamp timestamp : Nat) : ℚ :=
  if lastTimestamp = 0 ∨ timestamp ≤ lastTimestamp then 0
  else (1000000000 : ℚ) / ((timestamp : ℚ) - (lastTimestamp : ℚ))

/-- A device-level `Request*` as seen by the completion callback: its
status (cancelled or complete), the container's identity, the timestamp of
its first buffer's metadata, and its buffer bindings. -/
structure DeviceRequest where
  cancelled : Bool
  requestId : Nat
  timestamp : Nat
  buffers : List Binding
deriving DecidableEq, Repr

/-- The payload built by the completion callback (`CompletedRequest`):
sequence number, buffer bindings, derived framerate. -/
structure CompletedRequest where
  sequence : Nat
  buffers : List Binding
  framerate : ℚ
deriving DecidableEq, Repr

/-- Embedding of `LibcameraApp::requestComplete`
(libcamera_app.cpp:658-681): a cancelled request is discarded (no payload,
no state change); otherwise build a `CompletedRequest` with sequence
`sequence_++`, insert its identity into `known_completed_requests_` (we
use the fresh sequence number as the identity), push the reused request
container onto `free_requests_`, compute the framerate against
`last_timestamp_` and update `last_timestamp_`. -/
def requestComplete (s : AppState) (req : DeviceRequest) :
    AppState × Option CompletedRequest :=
  if req.cancelled then (s, none)
  else
    let cr : CompletedRequest :=
      { sequence := s.sequence
        buffers := req.buffers
        framerate := computeFramerate s.lastTimestamp req.timestamp }
    ({ s with
        sequence := s.sequence + 1
        knownCompletedRequests := s.sequence :: s.knownCompletedRequests
        freeRequests := s.freeRequests ++ [req.requestId]
        lastTimestamp := req.timestamp }, some cr)

/-- Deliver a list of completions to `requestComplete` in callback-arrival
order, collecting the produced payloads. -/
def processRequests (s : AppState) : List DeviceRequest →
    AppState × List CompletedRequest
  | [] => (s, [])
  | r :: rest =>
    let p := requestComplete s r
    let q := processRequests p.1 rest
    (q.1, p.2.toList ++ q.2)

/-- A configured stream for `makeRequests`: its `Stream*` identity and its
free-buffer queue from `frame_buffers_`. -/
structure StreamCfg where
  stream : Nat
  free : List Nat
deriving DecidableEq, Repr

/-- A built device-level request container: its (stream, buffer)
bindings. -/
structure RequestContainer where
  bindings : List Binding
deriving DecidableEq, Repr

/-- Within one round-robin slot of `makeRequests`, pop one free buffer
from each non-primary stream in configuration order; `none` when some
stream's free list is empty (the C++ throws "concurrent streams need
matching numbers of buffers" there). -/
def popOthers : List StreamCfg → Option (List Binding × List StreamCfg)
  | [] => some ([], [])
  | c :: rest =>
    match c.free with
    | [] => none
    | b :: bs =>
      (popOthers rest).map
        fun br => ((c.stream, b) :: br.1, { c with free := bs } :: br.2)

/-- Round-robin slots of `LibcameraApp::makeRequests`
(libcamera_app.cpp:626-656) after splitting off the primary stream
(`configuration_->at(0)`): as long as the primary stream has a free
buffer, build one request binding that buffer and one buffer of each other
stream, throwing when another stream's free list is empty; return when the
primary free list is exhausted. -/
def makeRequestsAux (stream : Nat) :
    List Nat → List StreamCfg → Except String (List RequestContainer)
  | [], _ => .ok []
  | b :: bs, others =>
    match popOthers others with
    | none => .error "concurrent streams need matching numbers of buffers"
    | some br =>
      (makeRequestsAux stream bs br.2).map
        fun reqs => { bindings := (stream, b) :: br.1 } :: reqs

/-- Embedding of `LibcameraApp::makeRequests`: the first configured stream
is the primary one. -/
def makeRequests : List StreamCfg → Except String (List RequestContainer)
  | [] => .ok []
  | prim :: others => makeRequestsAux prim.stream prim.free others

/-- A driver-level buffer plane: file descriptor and length
(`FrameBuffer::Plane`). -/
structure Plane where
  fd : Nat
  length : Nat
deriving DecidableEq, Repr

/-- Result of one `mmap` call: a mapped address, or `MAP_FAILED`. -/
inductive MMapResult
  | mapped (addr : Nat)
  | mapFailed
deriving DecidableEq, Repr

/-- Embedding of the per-buffer mapping loop of
`LibcameraApp::setupCapture` (libcamera_app.cpp:600-619), with `mm` the
`mmap` system call (fd, coalesced length ↦ result). Planes sharing one fd
with the next plane only accumulate their length; at the last plane of an
fd-group the buffer is mapped and the span `(memory, buffer_size)` is
appended to the `mapped_buffers_` entry — the C++ performs no check on the
value `mmap` returned, so a `MAP_FAILED` span is recorded like any
other. -/
def mapBufferPlanes (mm : Nat → Nat → MMapResult) :
    List Plane → Nat → List (MMapResult × Nat)
  | [], _ => []
  | p :: rest, acc =>
    let sz := acc + p.length
    match rest with
    | [] => [(mm p.fd sz, sz)]
    | q :: _ =>
      if p.fd = q.fd then mapBufferPlanes mm rest sz
      else (mm p.fd sz, sz) :: mapBufferPlanes mm rest 0

/-- State of `LibcameraEncoder`'s in-flight bookkeeping: the
`encode_buffer_queue_` of CompletedRequest references, front = oldest
submission. -/
structure EncState where
  queue : List Nat
deriving DecidableEq, Repr

/-- Embedding of the queue side-effect of `LibcameraEncoder::EncodeBuffer`
(libcamera_encoder.cpp): push the CompletedRequest reference at the back
of `encode_buffer_queue_` at submission time. -/
def EncodeBuffer (s : EncState) (cr : Nat) : EncState :=
  { queue := s.queue ++ [cr] }

/-- Embedding of `LibcameraEncoder::encodeBufferDone`: `assert(mem ==
nullptr)` (a non-null `mem`, i.e. an out-of-order buffer identification,
fails the assertion), then throw "no buffer available to return" if the
queue is empty, else pop the front reference. -/
def encodeBufferDone (s : EncState) (mem : Option Nat) :
    Except String EncState :=
  if mem ≠ none then .error "assertion failed: mem == nullptr"
  else
    match s.queue with
    | [] => .error "no buffer available to return"
    | _ :: rest => .ok { queue := rest }

/-- Configured dimensions of a stream (`StreamConfiguration`): width,
height, stride. -/
structure StreamConfigurationInfo where
  width : Nat
  height : Nat
  stride : Nat
deriving DecidableEq, Repr

/-- The three optional output pointers of `GetStream` /
`StreamDimensions`: `none` is a null pointer, `some v` a pointer whose
pointee currently holds `v`. -/
abbrev DimPtrs := Option Nat × Option Nat × Option Nat

/-- Embedding of `LibcameraApp::StreamDimensions`
(libcamera_app.cpp:564-573): write each output pointer that is non-null
with the stream's configured dimension; return the new pointee values. -/
def StreamDimensions (cfg : StreamConfigurationInfo) (p : DimPtrs) : DimPtrs :=
  (p.1.map fun _ => cfg.width,
   p.2.1.map fun _ => cfg.height,
   p.2.2.map fun _ => cfg.stride)

/-- Embedding of `LibcameraApp::GetStream` (libcamera_app.cpp:494-502)
over the `streams_` name table: a missing name returns a null stream
without touching the output pointers; a present name returns the stream
after `StreamDimensions` wrote the pointers. -/
def GetStream (streams : List (String × StreamConfigurationInfo))
    (name : String) (p : DimPtrs) :
    Option StreamConfigurationInfo × DimPtrs :=
  match streams.lookup name with
  | none => (none, p)
  | some cfg => (some cfg, StreamDimensions cfg p)

/-- `LibcameraApp::ViewfinderStream`. -/
def ViewfinderStream (streams : List (String × StreamConfigurationInfo))
    (p : DimPtrs) : Option StreamConfigurationInfo × DimPtrs :=
  GetStream streams "viewfinder" p

/-- `LibcameraApp::StillStream`. -/
def StillStream (streams : List (String × StreamConfigurationInfo))
    (p : DimPtrs) : Option StreamConfigurationInfo × DimPtrs :=
  GetStream streams "still" p

/-- `LibcameraApp::RawStream`. -/
def RawStream (streams : List (String × StreamConfigurationInfo))
    (p : DimPtrs) : Option StreamConfigurationInfo × DimPtrs :=
  GetStream streams "raw" p

/-- `LibcameraApp::VideoStream`. -/
def VideoStream (streams : List (String × StreamConfigurationInfo))
    (p : DimPtrs) : Option StreamConfigurationInfo × DimPtrs :=
  GetStream streams "video" p

/-- `LibcameraApp::LoresStream`. -/
def LoresStream (streams : List (String × StreamConfigurationInfo))
    (p : DimPtrs) : Option StreamConfigurationInfo × DimPtrs :=
  GetStream streams "lores" p

/-! Helper lemmas (shared; not claim theorems). -/

/-- Folding `EncodeBuffer` appends the submitted references in order. -/
theorem foldl_EncodeBuffer (crs : List Nat) :
    ∀ q : List Nat, (crs.foldl EncodeBuffer ⟨q⟩).queue = q ++ crs := by
  induction crs with
  | nil => intro q; simp
  | cons c rest ih =>
    intro q
    simpa [EncodeBuffer] using ih (q ++ [c])

/-- A burst of `ShowPreview` calls against an occupied slot only increments
the dropped-frame counter. -/
theorem showPreviewBurst_full (items : List (Nat × Nat)) :
    ∀ (s : AppState) (it : PreviewItem), s.previewItem = some it →
      showPreviewBurst s items =
        { s with previewFramesDropped := s.previewFramesDropped + items.length } := by
  induction items with
  | nil => intro s it _; simp [showPreviewBurst]
  | cons p ps ih =>
    intro s it h
    have hstep : ShowPreview s p.1 p.2 =
        { s with previewFramesDropped := s.previewFramesDropped + 1 } := by
      unfold ShowPreview
      rw [h]
    have := ih { s with previewFramesDropped := s.previewFramesDropped + 1 } it h
    simp only [showPreviewBurst, List.foldl_cons] at *
    rw [hstep, this]
    have harith : s.previewFramesDropped + 1 + ps.length =
        s.previewFramesDropped + (ps.length + 1) := by omega
    simp [harith]

/-- C1: after `StopCamera` returns, `camera_started_` is false and the
Known-Completed Set is empty, so releasing the last reference of a
CompletedRequest created before the stop (which runs `queueRequest`) is a
safe no-op: it submits nothing to the device and leaves the whole state,
the free-request list included, unchanged. -/
theorem stopCamera_orphan_release_noop (s : AppState) (cr : Nat) :
    (StopCamera s).cameraStarted = false ∧
    (StopCamera s).knownCompletedRequests = [] ∧
    queueRequest (StopCamera s) cr = (StopCamera s, .stoppedNoop) := by
  refine ⟨rfl, rfl, ?_⟩
  simp [queueRequest, StopCamera]

/-- C2: `queueRequest` (Recycle) is idempotent per identity: when the
identity is no longer in the Known-Completed Set, the call returns with the
state unchanged (no free-request container popped, the set untouched, the
device submission trace untouched) and does not submit a request. -/
theorem queueRequest_idempotent_unknown (s : AppState) (cr : Nat)
    (h : cr ∉ s.knownCompletedRequests) :
    (queueRequest s cr).1 = s ∧
    ∀ r : Nat, (queueRequest s cr).2 ≠ .submitted r := by
  unfold queueRequest
  cases hs : s.cameraStarted <;> simp [hs, h]

/-- Witness for C2 at a concrete started state with an empty set. -/
theorem queueRequest_idempotent_unknown_witness :
    (queueRequest ⟨true, [], [3], [], none, 0, 0, 0, []⟩ 7).1 =
        ⟨true, [], [3], [], none, 0, 0, 0, []⟩ ∧
    ∀ r : Nat,
      (queueRequest ⟨true, [], [3], [], none, 0, 0, 0, []⟩ 7).2 ≠ .submitted r :=
  queueRequest_idempotent_unknown ⟨true, [], [3], [], none, 0, 0, 0, []⟩ 7
    (by decide)

/-- C6: when the identity is known, the camera is started, but the
free-request list is empty, Recycle erases the identity, warns and returns:
nothing is submitted to the device (the trace and the empty free list are
unchanged) and no error is raised. -/
theorem queueRequest_noFreeRequest_drops (s : AppState) (cr : Nat)
    (hstart : s.cameraStarted = true)
    (hknown : cr ∈ s.knownCompletedRequests)
    (hfree : s.freeRequests = []) :
    queueRequest s cr =
      ({ s with knownCompletedRequests := s.knownCompletedRequests.erase cr },
        .droppedNoFree) := by
  unfold queueRequest
  simp [hstart, hknown, hfree]

/-- Witness for C6 at a concrete state. -/
theorem queueRequest_noFreeRequest_drops_witness :
    queueRequest ⟨true, [5], [], [], none, 0, 4, 9, [2]⟩ 5 =
      (⟨true, [], [], [], none, 0, 4, 9, [2]⟩, .droppedNoFree) := by
  have h := queueRequest_noFreeRequest_drops ⟨true, [5], [], [], none, 0, 4, 9, [2]⟩ 5
    rfl (by decide) rfl
  simpa using h

/-- C7: `ShowPreview` on an empty slot stores the item and leaves the
dropped counter unchanged; on an occupied slot it leaves the stored item in
place and increments the counter by exactly 1; hence a burst of `K = 1 +
tl.length` arrivals on an initially empty slot stores exactly the first
item and counts the other `K - 1` as dropped. -/
theorem showPreview_slot_spec (s : AppState) (cr stream : Nat)
    (it : PreviewItem) (hd : Nat × Nat) (tl : List (Nat × Nat)) :
    ShowPreview { s with previewItem := none } cr stream =
      { s with previewItem := some ⟨cr, stream⟩ } ∧
    ShowPreview { s with previewItem := some it } cr stream =
      { s with previewItem := some it,
               previewFramesDropped := s.previewFramesDropped + 1 } ∧
    showPreviewBurst { s with previewItem := none } (hd :: tl) =
      { s with previewItem := some ⟨hd.1, hd.2⟩,
               previewFramesDropped := s.previewFramesDropped + tl.length } := by
  refine ⟨rfl, rfl, ?_⟩
  have hstep : ShowPreview { s with previewItem := none } hd.1 hd.2 =
      { s with previewItem := some ⟨hd.1, hd.2⟩ } := rfl
  have := showPreviewBurst_full tl { s with previewItem := some ⟨hd.1, hd.2⟩ }
    ⟨hd.1, hd.2⟩ rfl
  simp only [showPreviewBurst, List.foldl_cons] at *
  rw [hstep, this]

/-- C9: the encoder consumer is a strict FIFO: submitting references via
`EncodeBuffer` queues them in submission order (front = oldest); a done
signal with `mem == nullptr` pops exactly the oldest in-flight reference; a
done signal with no buffer in flight raises an explicit error; a done
signal carrying a buffer identification (non-null `mem`, which would be
needed for out-of-order completion) fails the assertion, an explicit
error. -/
theorem encoder_fifo_spec :
    (∀ crs : List Nat, (crs.foldl EncodeBuffer ⟨[]⟩).queue = crs) ∧
    (∀ (cr : Nat) (rest : List Nat),
      encodeBufferDone ⟨cr :: rest⟩ none = .ok ⟨rest⟩) ∧
    encodeBufferDone ⟨[]⟩ none = .error "no buffer available to return" ∧
    (∀ (s : EncState) (m : Nat),
      encodeBufferDone s (some m) = .error "assertion failed: mem == nullptr") := by
  refine ⟨fun crs => by simpa using foldl_EncodeBuffer crs [], fun cr rest => rfl,
    rfl, fun s m => rfl⟩

/-- C8: a cancelled request is discarded silently — no payload, no state
change, in particular the sequence counter does not advance — and the
payloads produced for any list of completions delivered in callback-arrival
order carry the consecutive sequence numbers starting at the current
counter, one per non-cancelled completion: strictly increasing with no
gaps. -/
theorem requestComplete_sequence_spec :
    (∀ (s : AppState) (req : DeviceRequest),
      requestComplete s { req with cancelled := true } = (s, none)) ∧
    (∀ (s : AppState) (reqs : List DeviceRequest),
      (processRequests s reqs).2.map CompletedRequest.sequence =
        List.range' s.sequence (reqs.countP fun r => !r.cancelled)) := by
  refine ⟨fun s req => by simp [requestComplete], fun s reqs => ?_⟩
  induction reqs generalizing s with
  | nil => simp [processRequests]
  | cons r rest ih =>
    cases hr : r.cancelled with
    | true => simp [processRequests, requestComplete, hr, ih, List.countP_cons]
    | false =>
      simp [processRequests, requestComplete, hr, ih, List.countP_cons,
        List.range'_succ]

/-- C10: `GetStream` on a name missing from the streams table returns a
null stream and leaves all three output pointers untouched; on a present
name it returns the stream and writes each non-null pointer with the
configured dimension; the named wrappers are exactly `GetStream` at their
fixed names. -/
theorem getStream_spec (streams : List (String × StreamConfigurationInfo))
    (name : String) (p : DimPtrs) :
    (streams.lookup name = none → GetStream streams name p = (none, p)) ∧
    (∀ cfg, streams.lookup name = some cfg →
      GetStream streams name p =
        (some cfg,
          (p.1.map fun _ => cfg.width,
           p.2.1.map fun _ => cfg.height,
           p.2.2.map fun _ => cfg.stride))) ∧
    ViewfinderStream streams p = GetStream streams "viewfinder" p ∧
    StillStream streams p = GetStream streams "still" p ∧
    RawStream streams p = GetStream streams "raw" p ∧
    VideoStream streams p = GetStream streams "video" p ∧
    LoresStream streams p = GetStream streams "lores" p := by
  refine ⟨fun h => by simp [GetStream, h],
    fun cfg h => by simp [GetStream, h, StreamDimensions], rfl, rfl, rfl, rfl,
    rfl⟩

/-- Witness for C10: a concrete table holding only "video"; the missing
name "still" leaves the pointers unchanged, the present name writes the
non-null ones. -/
theorem getStream_spec_witness :
    GetStream [("video", ⟨640, 480, 768⟩)] "still" (some 1, some 2, some 3) =
      (none, (some 1, some 2, some 3)) ∧
    GetStream [("video", ⟨640, 480, 768⟩)] "video" (some 1, none, some 3) =
      (some ⟨640, 480, 768⟩, (some 640, none, some 768)) := by
  have h1 := getStream_spec [("video", ⟨640, 480, 768⟩)] "still"
    (some 1, some 2, some 3)
  have h2 := getStream_spec [("video", ⟨640, 480, 768⟩)] "video"
    (some 1, none, some 3)
  exact ⟨h1.1 (by decide), by simpa using h2.2.1 ⟨640, 480, 768⟩ (by decide)⟩

/-- C5: the mapping loop of `setupCapture` evaluated where `mmap` fails:
the `MAP_FAILED` span is recorded in the Memory Map Table entry and no
error is surfaced — shown for a single-plane buffer and for a buffer whose
first two planes share an fd (coalesced into one span) followed by a
distinct-fd plane. This contradicts the claim that a mapping failure
aborts setup and is never silently recorded. -/
theorem mapBufferPlanes_records_mapFailed :
    mapBufferPlanes (fun _ _ => .mapFailed) [⟨5, 100⟩] 0 =
      [(.mapFailed, 100)] ∧
    mapBufferPlanes (fun _ _ => .mapFailed) [⟨5, 100⟩, ⟨5, 50⟩, ⟨7, 30⟩] 0 =
      [(.mapFailed, 150), (.mapFailed, 30)] := ⟨rfl, rfl⟩

/-- Unwrapped subtraction when the minuend dominates: no wrap happens. -/
theorem wrapSub_of_le {a b : Nat} (hba : b ≤ a) (ha : a < UINT64_MOD) :
    wrapSub a b = a - b := by
  have hb : b ≤ UINT64_MOD := le_of_lt (lt_of_le_of_lt hba ha)
  unfold wrapSub
  have h1 : a + (UINT64_MOD - b) = (a - b) + UINT64_MOD := by omega
  rw [h1, Nat.add_mod_right, Nat.mod_eq_of_lt (by omega)]

/-- Wrapped subtraction when the subtrahend dominates. -/
theorem wrapSub_of_gt {a b : Nat} (hab : a < b) (hb : b < UINT64_MOD) :
    wrapSub a b = a + UINT64_MOD - b := by
  unfold wrapSub
  have h1 : a + (UINT64_MOD - b) = a + UINT64_MOD - b := by omega
  rw [h1, Nat.mod_eq_of_lt (by omega)]

/-- C4 counterexample: at `last_timestamp_ = 2` and strictly decreasing
`timestamp = 1` the code computes `1e9 / (2^64 - 1)` — a nonzero
unsigned-wrap artifact — while the claim (and `specFramerate`, worded from
the spec) requires `0` for any non-increasing timestamp. -/
theorem framerate_decreasing_counterexample :
    computeFramerate 2 1 ≠ 0 ∧ specFramerate 2 1 = 0 := by
  constructor
  · unfold computeFramerate wrapSub UINT64_MOD
    norm_num
  · unfold specFramerate
    norm_num

/-- C4 amended: the framerate is 0 exactly when this is the first frame
(`last = 0`) or the timestamp equals the previous one; for a strictly
increasing timestamp it is `1e9` over the true delta; for a strictly
decreasing timestamp it is the unsigned-wrap artifact
`1e9 / (timestamp + 2^64 - last)`, which is nonzero. -/
theorem computeFramerate_spec (last t : Nat)
    (hl : last < UINT64_MOD) (ht : t < UINT64_MOD) :
    (computeFramerate last t = 0 ↔ last = 0 ∨ last = t) ∧
    (last ≠ 0 → last < t →
      computeFramerate last t = 1000000000 / ((t : ℚ) - (last : ℚ))) ∧
    (last ≠ 0 → t < last →
      computeFramerate last t =
        1000000000 / ((t : ℚ) + (UINT64_MOD : ℚ) - (last : ℚ))) := by
  have hw : ¬(last = 0 ∨ last = t) → wrapSub t last ≠ 0 := by
    intro h
    rcases Nat.lt_trichotomy last t with hlt | heq | hgt
    · rw [wrapSub_of_le (le_of_lt hlt) ht]; omega
    · exact absurd (Or.inr heq) h
    · rw [wrapSub_of_gt hgt hl]; omega
  refine ⟨⟨?_, ?_⟩, ?_, ?_⟩
  · intro h0
    by_contra hc
    have hw' := hw hc
    unfold computeFramerate at h0
    rw [if_neg hc] at h0
    rcases div_eq_zero_iff.mp h0 with h1 | h2
    · norm_num at h1
    · exact hw' (Nat.cast_eq_zero.mp h2)
  · intro h
    unfold computeFramerate
    rw [if_pos h]
  · intro h0 hlt
    unfold computeFramerate
    rw [if_neg (by omega), wrapSub_of_le (le_of_lt hlt) ht,
      Nat.cast_sub (le_of_lt hlt)]
  · intro h0 hgt
    unfold computeFramerate
    rw [if_neg (by omega), wrapSub_of_gt hgt hl, Nat.cast_sub (by omega),
      Nat.cast_add]

/-- Witness for C4 amended: the increasing, decreasing and equal cases
evaluated at concrete timestamps. -/
theorem computeFramerate_spec_witness :
    computeFramerate 2 5 = 1000000000 / ((5 : ℚ) - (2 : ℚ)) ∧
    computeFramerate 2 1 =
      1000000000 / ((1 : ℚ) + (UINT64_MOD : ℚ) - (2 : ℚ)) ∧
    (computeFramerate 2 2 = 0 ↔ (2 = 0 ∨ 2 = 2)) := by
  have h5 := computeFramerate_spec 2 5 (by norm_num [UINT64_MOD])
    (by norm_num [UINT64_MOD])
  have h1 := computeFramerate_spec 2 1 (by norm_num [UINT64_MOD])
    (by norm_num [UINT64_MOD])
  have h2 := computeFramerate_spec 2 2 (by norm_num [UINT64_MOD])
    (by norm_num [UINT64_MOD])
  exact ⟨h5.2.1 (by norm_num) (by norm_num), h1.2.2 (by norm_num) (by norm_num),
    h2.1⟩

/-- Mapped `Except` values are errors exactly when the original is. -/
theorem except_map_eq_error {ε α β : Type} (f : α → β) (x : Except ε α)
    (e : ε) : x.map f = .error e ↔ x = .error e := by
  cases x <;> simp [Except.map]

/-- Mapped `Except` values are `ok` exactly on an `ok` original. -/
theorem except_map_eq_ok {ε α β : Type} (f : α → β) (x : Except ε α)
    (y : β) : x.map f = .ok y ↔ ∃ a, x = .ok a ∧ f a = y := by
  cases x <;> simp [Except.map]

/-- `popOthers` fails exactly when some stream's free list is empty. -/
theorem popOthers_eq_none_iff (others : List StreamCfg) :
    popOthers others = none ↔ ∃ c ∈ others, c.free = [] := by
  induction others with
  | nil => simp [popOthers]
  | cons c rest ih =>
    cases hc : c.free with
    | nil =>
      simp only [popOthers, hc]
      constructor
      · intro _
        exact ⟨c, List.mem_cons_self c rest, hc⟩
      · intro _
        trivial
    | cons b bs =>
      simp only [popOthers, hc, Option.map_eq_none', ih]
      constructor
      · rintro ⟨c', hm, he⟩
        exact ⟨c', List.mem_cons_of_mem _ hm, he⟩
      · rintro ⟨c', hm, he⟩
        rcases List.mem_cons.mp hm with h | h
        · subst h
          rw [hc] at he
          cases he
        · exact ⟨c', h, he⟩

/-- When `popOthers` succeeds it produces one binding per stream and pops
exactly one buffer from every stream's free list. -/
theorem popOthers_some_freeLens :
    ∀ {others : List StreamCfg} {br : List Binding × List StreamCfg},
      popOthers others = some br →
      br.1.length = others.length ∧
      br.2.length = others.length ∧
      br.2.map (fun c => c.free.length) =
        others.map (fun c => c.free.length - 1) ∧
      ∀ c ∈ others, c.free ≠ [] := by
  intro others
  induction others with
  | nil =>
    intro br h
    simp only [popOthers, Option.some_inj] at h
    subst h
    simp
  | cons c rest ih =>
    intro br h
    cases hc : c.free with
    | nil => simp [popOthers, hc] at h
    | cons b bs =>
      simp only [popOthers, hc] at h
      rcases Option.map_eq_some'.mp h with ⟨br', hbr', heq⟩
      obtain ⟨h1, h2, h3, h4⟩ := ih hbr'
      subst heq
      refine ⟨by simp [h1], by simp [h2], by simp [hc, h3], ?_⟩
      intro d hd
      rcases List.mem_cons.mp hd with hdc | hdm
      · subst hdc
        simp [hc]
      · exact h4 d hdm

/-- Transfer of the "some stream is short" condition across one round-robin
slot. -/
theorem popOthers_exists_lt {others : List StreamCfg}
    {br : List Binding × List StreamCfg} (h : popOthers others = some br)
    (n : Nat) :
    (∃ c ∈ br.2, c.free.length < n) ↔
      ∃ c ∈ others, c.free.length < n + 1 := by
  obtain ⟨-, -, hmap, hne⟩ := popOthers_some_freeLens h
  constructor
  · rintro ⟨c', hm, hlt⟩
    have hmem : c'.free.length ∈ br.2.map (fun c => c.free.length) :=
      List.mem_map_of_mem _ hm
    rw [hmap] at hmem
    rcases List.mem_map.mp hmem with ⟨c, hcm, hceq⟩
    have hpos : c.free.length ≠ 0 := by
      simpa [List.length_eq_zero] using hne c hcm
    exact ⟨c, hcm, by omega⟩
  · rintro ⟨c, hm, hlt⟩
    have hpos : c.free.length ≠ 0 := by
      simpa [List.length_eq_zero] using hne c hm
    have hmem : c.free.length - 1 ∈ others.map (fun c => c.free.length - 1) :=
      List.mem_map_of_mem _ hm
    rw [← hmap] at hmem
    rcases List.mem_map.mp hmem with ⟨c', hcm', hceq'⟩
    exact ⟨c', hcm', by omega⟩

/-- `makeRequestsAux` throws the buffer-count error exactly when some
non-primary stream has fewer free buffers than the primary has
remaining. -/
theorem makeRequestsAux_error_iff (stream : Nat) :
    ∀ (bs : List Nat) (others : List StreamCfg),
      makeRequestsAux stream bs others =
          .error "concurrent streams need matching numbers of buffers" ↔
        ∃ c ∈ others, c.free.length < bs.length := by
  intro bs
  induction bs with
  | nil => intro others; simp [makeRequestsAux]
  | cons b bs ih =>
    intro others
    cases hpo : popOthers others with
    | none =>
      simp only [makeRequestsAux, hpo]
      constructor
      · intro _
        rcases (popOthers_eq_none_iff others).mp hpo with ⟨c, hm, he⟩
        exact ⟨c, hm, by simp [he]⟩
      · intro _
        trivial
    | some br =>
      simp only [makeRequestsAux, hpo]
      rw [except_map_eq_error, ih br.2, popOthers_exists_lt hpo,
        List.length_cons]

/-- Every error `makeRequestsAux` produces is the buffer-count error. -/
theorem makeRequestsAux_error_msg (stream : Nat) :
    ∀ (bs : List Nat) (others : List StreamCfg) (e : String),
      makeRequestsAux stream bs others = .error e →
      e = "concurrent streams need matching numbers of buffers" := by
  intro bs
  induction bs with
  | nil => intro others e h; simp [makeRequestsAux] at h
  | cons b bs ih =>
    intro others e h
    cases hpo : popOthers others with
    | none =>
      simp only [makeRequestsAux, hpo, Except.error.injEq] at h
      exact h.symm
    | some br =>
      simp only [makeRequestsAux, hpo] at h
      exact ih br.2 e ((except_map_eq_error _ _ _).mp h)

/-- On success `makeRequestsAux` builds one request per remaining primary
buffer, each holding one binding per configured stream. -/
theorem makeRequestsAux_ok (stream : Nat) :
    ∀ (bs : List Nat) (others : List StreamCfg)
      (reqs : List RequestContainer),
      makeRequestsAux stream bs others = .ok reqs →
      reqs.length = bs.length ∧
      ∀ r ∈ reqs, r.bindings.length = others.length + 1 := by
  intro bs
  induction bs with
  | nil =>
    intro others reqs h
    simp only [makeRequestsAux, Except.ok.injEq] at h
    subst h
    simp
  | cons b bs ih =>
    intro others reqs h
    cases hpo : popOthers others with
    | none => simp [makeRequestsAux, hpo] at h
    | some br =>
      simp only [makeRequestsAux, hpo] at h
      rcases (except_map_eq_ok _ _ _).mp h with ⟨reqs', hr', heq⟩
      obtain ⟨hl, hb⟩ := ih br.2 reqs' hr'
      obtain ⟨hlen1, hlen2, -, -⟩ := popOthers_some_freeLens hpo
      subst heq
      refine ⟨by simp [hl], ?_⟩
      intro r hr
      rcases List.mem_cons.mp hr with hrc | hrm
      · subst hrc
        simp [hlen1]
      · have := hb r hrm
        omega

/-- C3: `makeRequests` builds exactly one Request container per free buffer
of the primary stream (the first configured stream), each binding one
buffer per configured stream — so a single stream with N buffers yields N
Requests — and it throws (always with the buffer-count message) if and only
if some other configured stream has fewer free buffers than the primary,
i.e. exactly when at some round-robin slot the primary still has a free
buffer while that stream's free list is empty; it returns normally once the
primary's free list is exhausted. -/
theorem makeRequests_spec (prim : StreamCfg) (others : List StreamCfg) :
    (makeRequests (prim :: others) =
        .error "concurrent streams need matching numbers of buffers" ↔
      ∃ c ∈ others, c.free.length < prim.free.length) ∧
    (∀ e, makeRequests (prim :: others) = .error e →
      e = "concurrent streams need matching numbers of buffers") ∧
    (∀ reqs, makeRequests (prim :: others) = .ok reqs →
      reqs.length = prim.free.length ∧
      ∀ r ∈ reqs, r.bindings.length = others.length + 1) := by
  refine ⟨makeRequestsAux_error_iff prim.stream prim.free others,
    fun e h => makeRequestsAux_error_msg prim.stream prim.free others e h,
    fun reqs h => makeRequestsAux_ok prim.stream prim.free others reqs h⟩

/-- Witness for C3: two streams with mismatched buffer counts throw the
buffer-count error; a matched two-stream configuration with two buffers
each yields exactly two Requests. -/
theorem makeRequests_spec_witness :
    makeRequests [⟨0, [10, 11]⟩, ⟨1, [20]⟩] =
      .error "concurrent streams need matching numbers of buffers" ∧
    ([⟨[(0, 10), (1, 20)]⟩, ⟨[(0, 11), (1, 21)]⟩] :
        List RequestContainer).length = 2 := by
  have he := (makeRequests_spec ⟨0, [10, 11]⟩ [⟨1, [20]⟩]).1
  have hk := (makeRequests_spec ⟨0, [10, 11]⟩ [⟨1, [20, 21]⟩]).2.2
    [⟨[(0, 10), (1, 20)]⟩, ⟨[(0, 11), (1, 21)]⟩] rfl
  exact ⟨he.mpr ⟨⟨1, [20]⟩, by simp, by simp⟩, hk.1⟩

end LibcameraApp
